import Mathlib

/-!
# Verification of the teggle-index API server core

Shallow embedding of the enclave API server (`src/sgx/enclave/src/api`):
the deferral inbox, the HTTP codec, raw-request accumulation, the router,
the recovery middleware, the outbound HTTP client reactor and the server
accept/dispatch loop, together with theorems settling the specification
claims about them.

Byte buffers are modelled as `List Char` (the traffic is ASCII); machine
integers as `Nat` (`usize` overflow is explicit where it matters);
`Result<T, Error>` as `Except Error T`; closures and futures held in
queues are opaque type parameters.
-/

namespace Teggle

/-- Shorthand turning a string literal into the `List Char` byte-buffer model. -/
def chars (s : String) : List Char := s.data

/-- Error kinds, from `api/results.rs` (`enum ErrorKind`). -/
inductive ErrorKind where
  | EncodeFault
  | DecodeFault
  | ServerFault
  | WSFault
  | WSClosed
  | TimedOut
  | PayloadTooLarge
  | ExecError
  | HttpClientError
  | HttpClientTimedOut
deriving DecidableEq, Repr

/-- Errors, from `api/results.rs` (`struct Error`): a kind plus a message. -/
structure Error where
  kind : ErrorKind
  message : String
deriving DecidableEq, Repr

/-- The `Error::new` defaults the kind to `ServerFault` (`api/results.rs`). -/
def Error.new (message : String) : Error :=
  { kind := .ServerFault, message := message }

/-- The `Error::new_with_kind` (`api/results.rs`). -/
def Error.new_with_kind (kind : ErrorKind) (message : String) : Error :=
  { kind := kind, message := message }

/-- The `Error::http_status` (`api/results.rs` lines 110-123), as the numeric code. -/
def Error.http_status (e : Error) : Nat :=
  match e.kind with
  | .EncodeFault => 500
  | .DecodeFault => 500
  | .ServerFault => 500
  | .WSFault => 400
  | .WSClosed => 226
  | .TimedOut => 408
  | .PayloadTooLarge => 413
  | .ExecError => 502
  | .HttpClientError => 502
  | .HttpClientTimedOut => 504

/-- The `too_many_bytes_err` (`api/results.rs` lines 139-144). -/
def too_many_bytes_err (bytes max_bytes : Nat) : Error :=
  Error.new_with_kind .PayloadTooLarge
    ("too many bytes sent (" ++ toString bytes ++ " > " ++ toString max_bytes ++ ")")

/-- The canonical reason phrases of the `http` crate (`StatusCode::canonical_reason`),
restricted to the codes this program can produce. -/
def canonicalReason (code : Nat) : Option String :=
  match code with
  | 101 => some "Switching Protocols"
  | 200 => some "OK"
  | 226 => some "IM Used"
  | 400 => some "Bad Request"
  | 404 => some "Not Found"
  | 408 => some "Request Timeout"
  | 413 => some "Payload Too Large"
  | 500 => some "Internal Server Error"
  | 502 => some "Bad Gateway"
  | 504 => some "Gateway Timeout"
  | _ => none

/-- The `mio` readiness-source for cross-waking (`api/reactor/waker.rs`): a token plus
the registration's readiness flag. `trigger` sets readiness, `clear` resets it. -/
structure ReactorWaker where
  token : Nat
  readiness : Bool
deriving DecidableEq, Repr

/-- The `ReactorWaker::trigger` (`waker.rs` line 23). -/
def ReactorWaker.trigger (w : ReactorWaker) : ReactorWaker :=
  { w with readiness := true }

/-- The `ReactorWaker::clear` (`waker.rs` line 27). -/
def ReactorWaker.clear (w : ReactorWaker) : ReactorWaker :=
  { w with readiness := false }

/-! ## Deferral inbox (`api/server/connection.rs` lines 616-704)

The queued callbacks and futures are opaque (`D` and `F`): the claims only
concern queue lengths and admission. -/

/-- The per-connection deferral inbox `Deferral` (`connection.rs` lines 616-623). -/
structure Deferral (D F : Type) where
  waker : ReactorWaker
  defers : List D
  futures : List F
  max_defers_queue : Option Nat
  max_futures_queue : Option Nat

/-- The `Deferral::new` (`connection.rs` lines 626-638). -/
def Deferral.new (D F : Type) (waker_token : Nat)
    (max_defers_queue max_futures_queue : Option Nat) : Deferral D F :=
  { waker := { token := waker_token, readiness := false }
    defers := []
    futures := []
    max_defers_queue := max_defers_queue
    max_futures_queue := max_futures_queue }

/-- The `Deferral::defer` (`connection.rs` lines 640-660): reject with `ServerFault`
when `defers.len() >= max_defers_queue`, else push and trigger the waker. -/
def Deferral.defer {D F : Type} (d : Deferral D F) (cb : D) :
    Except Error (Deferral D F) :=
  match d.max_defers_queue with
  | some m =>
    if d.defers.length ≥ m then
      .error (Error.new_with_kind .ServerFault
        ("unable to queue deferral, limit exceeded: " ++ toString m))
    else
      .ok { d with defers := d.defers ++ [cb], waker := d.waker.trigger }
  | none => .ok { d with defers := d.defers ++ [cb], waker := d.waker.trigger }

/-- The `Deferral::spawn` (`connection.rs` lines 662-680). NOTE: the source compares
`self.defers.len()` (not `self.futures.len()`) against `max_futures_queue`
before pushing into `futures`; the embedding reproduces that comparison. -/
def Deferral.spawn {D F : Type} (d : Deferral D F) (fut : F) :
    Except Error (Deferral D F) :=
  match d.max_futures_queue with
  | some m =>
    if d.defers.length ≥ m then
      .error (Error.new_with_kind .ServerFault
        ("unable to queue future, limit exceeded: " ++ toString m))
    else
      .ok { d with futures := d.futures ++ [fut], waker := d.waker.trigger }
  | none => .ok { d with futures := d.futures ++ [fut], waker := d.waker.trigger }

/-- The `Deferral::take_pending` (`connection.rs` lines 692-703): clear the waker,
move both queues out. -/
def Deferral.take_pending {D F : Type} (d : Deferral D F) :
    (List D × List F) × Deferral D F :=
  ((d.defers, d.futures),
   { d with defers := [], futures := [], waker := d.waker.clear })

/-! ## HTTP/1.x head parsing (`api/handler/codec.rs` lines 66-133)

`HttpCodec::decode` drives the external `httparse` crate and re-packages the
parsed head into an `http::request::Builder`. The head grammar below is
modelled from the spec: "parse HTTP/1.x request head from the buffer; on
`Partial`, leave head as None; on `Complete(n)`, split off the first `n`
bytes as the head prefix and keep remainder as body", with a fixed-capacity
header slot array of 16 whose overflow is rejected as a decode fault, and
only HTTP/1.0 and HTTP/1.1 accepted. -/

/-- Characters `httparse` accepts in a method or header-name token
(restricted to the alphanumerics plus `-`, `_`, `.`). -/
def isTokenChar (c : Char) : Bool :=
  c.isAlphanum || c = '-' || c = '_' || c = '.'

/-- Characters accepted inside a request target: anything but space, CR, LF. -/
def isPathChar (c : Char) : Bool :=
  !(c = ' ' || c = '\r' || c = '\n')

/-- Characters accepted inside a header value: anything but CR, LF. -/
def isValueChar (c : Char) : Bool :=
  !(c = '\r' || c = '\n')

/-- Longest prefix whose characters satisfy `p`, together with the remainder. -/
def scanToken (p : Char → Bool) : List Char → List Char × List Char
  | [] => ([], [])
  | c :: cs =>
    if p c then
      let r := scanToken p cs
      (c :: r.1, r.2)
    else
      ([], c :: cs)

/-- Result of matching a literal against the head of the input: matched with a
remainder, ran out of input (more bytes may still complete it), or mismatch. -/
inductive ExpectR where
  | ok (rest : List Char)
  | incomplete
  | mismatch
deriving DecidableEq, Repr

/-- Match the literal `lit` against the head of `l`. -/
def expectLit : List Char → List Char → ExpectR
  | [], l => .ok l
  | _ :: _, [] => .incomplete
  | e :: es, c :: cs => if c = e then expectLit es cs else .mismatch

/-- Outcome of parsing the header block. -/
inductive HeadersR where
  | complete (headers : List (List Char × List Char)) (rest : List Char)
  | incomplete
  | mismatch
deriving DecidableEq, Repr

/-- Parse up to `slots` more `name: value` header lines, ending at the blank
line; a header line with no slot left overflows the fixed 16-slot array and
is a parse error. Leading spaces after the colon are skipped; the value runs
to CR/LF. -/
def parseHeaders : Nat → List (List Char × List Char) → List Char → HeadersR
  | 0, acc, l =>
    match expectLit (chars "\r\n") l with
    | .ok rest => .complete acc rest
    | .incomplete => .incomplete
    | .mismatch => .mismatch
  | slots + 1, acc, l =>
    match expectLit (chars "\r\n") l with
    | .ok rest => .complete acc rest
    | .incomplete => .incomplete
    | .mismatch =>
      let (name, r1) := scanToken isTokenChar l
      if name.isEmpty then .mismatch
      else
        match expectLit (chars ":") r1 with
        | .incomplete => .incomplete
        | .mismatch => .mismatch
        | .ok r2 =>
          let (_, r3) := scanToken (fun c => c = ' ') r2
          let (value, r4) := scanToken isValueChar r3
          match expectLit (chars "\r\n") r4 with
          | .incomplete => .incomplete
          | .mismatch => .mismatch
          | .ok r5 => parseHeaders slots (acc ++ [(name, value)]) r5

/-- A parsed request head: method, target, minor HTTP version digit (0 or 1),
and the header lines in order. -/
structure RawHead where
  method : List Char
  path : List Char
  version : Nat
  headers : List (List Char × List Char)
deriving DecidableEq, Repr

/-- Outcome of parsing a request head, mirroring `httparse::Status`:
complete with the unconsumed remainder (the body bytes), incomplete
(`Partial`), or a parse error. -/
inductive ParseResult where
  | complete (head : RawHead) (rest : List Char)
  | incomplete
  | mismatch
deriving DecidableEq, Repr

/-- Parse an HTTP/1.x request head:
`METHOD SP TARGET SP HTTP/1.<d> CRLF (NAME ":" SP* VALUE CRLF)* CRLF`. -/
def parseHead (l : List Char) : ParseResult :=
  let (m, r1) := scanToken isTokenChar l
  if m.isEmpty then (if l.isEmpty then .incomplete else .mismatch)
  else
    match expectLit (chars " ") r1 with
    | .incomplete => .incomplete
    | .mismatch => .mismatch
    | .ok r2 =>
      let (p, r3) := scanToken isPathChar r2
      if p.isEmpty then (if r2.isEmpty then .incomplete else .mismatch)
      else
        match expectLit (chars " HTTP/1.") r3 with
        | .incomplete => .incomplete
        | .mismatch => .mismatch
        | .ok r4 =>
          match r4 with
          | [] => .incomplete
          | d :: r5 =>
            if d = '0' ∨ d = '1' then
              match expectLit (chars "\r\n") r5 with
              | .incomplete => .incomplete
              | .mismatch => .mismatch
              | .ok r6 =>
                match parseHeaders 16 [] r6 with
                | .incomplete => .incomplete
                | .mismatch => .mismatch
                | .complete headers rest =>
                  .complete
                    { method := m, path := p
                      version := if d = '1' then 1 else 0
                      headers := headers } rest
            else .mismatch

/-- The two HTTP versions the codec accepts (`codec.rs` lines 110-119). -/
inductive HttpVersion where
  | V10
  | V11
deriving DecidableEq, Repr

/-- The `http::Version` Debug rendering used by the encoder's `{:?}`. -/
def HttpVersion.debugStr : HttpVersion → List Char
  | .V10 => chars "HTTP/1.0"
  | .V11 => chars "HTTP/1.1"

/-- ASCII-lowercase a header name, modelling that `http::HeaderName` stores
names in lowercase (`codec.rs` line 129 re-inserts each parsed name through
`HeaderName`). -/
def lowerName (n : List Char) : List Char :=
  n.map Char.toLower

/-- The decoded request head re-packaged as `http::request::Builder` state:
method, URI, version, and the header map in insertion order (names stored
lowercase). -/
structure Builder where
  method : List Char
  uri : List Char
  version : HttpVersion
  headers : List (List Char × List Char)
deriving DecidableEq, Repr

/-- The `HttpCodec::decode` (`codec.rs` lines 66-133): `Ok None` on a partial
head, `DecodeFault` on a parse error, otherwise the builder plus the
remainder of the buffer after `split_to(amt)` (the body bytes). -/
def HttpCodec.decode (src : List Char) :
    Except Error (Option (Builder × List Char)) :=
  match parseHead src with
  | .incomplete => .ok none
  | .mismatch =>
    .error (Error.new_with_kind .DecodeFault "failed to parse http request")
  | .complete h rest =>
    match h.version with
    | 0 =>
      .ok (some ({ method := h.method, uri := h.path, version := .V10
                   headers := h.headers.map (fun kv => (lowerName kv.1, kv.2)) },
                 rest))
    | 1 =>
      .ok (some ({ method := h.method, uri := h.path, version := .V11
                   headers := h.headers.map (fun kv => (lowerName kv.1, kv.2)) },
                 rest))
    | _ =>
      .error (Error.new_with_kind .DecodeFault "only HTTP/1.0 or 1.1 accepted")

/-! ## Raw request accumulation (`api/handler/request.rs` lines 153-306) -/

/-- Server configuration (`api/server/config.rs` lines 39-89), durations as
integral time values. -/
structure Config where
  max_bytes_received : Nat
  request_timeout : Nat
  exec_timeout : Nat
  max_defers_queue : Option Nat
  max_futures_queue : Option Nat
deriving DecidableEq, Repr

/-- First header with the given (lowercase) name, as `HeaderMap::get` returns
the first of possibly several values. -/
def firstHeaderValue (headers : List (List Char × List Char)) (name : List Char) :
    Option (List Char) :=
  (headers.find? (fun kv => kv.1 == name)).map (fun kv => kv.2)

/-- Rust `str::parse::<usize>`: optional leading `+`, one or more ASCII digits,
and the value must fit in a 64-bit `usize` (overflow is a parse error). -/
def parseUsize (s : List Char) : Option Nat :=
  let digits := match s with
    | '+' :: rest => rest
    | _ => s
  if digits.isEmpty then none
  else if digits.all Char.isDigit then
    let n := digits.foldl (fun a c => a * 10 + (c.toNat - 48)) 0
    if n < 2 ^ 64 then some n else none
  else none

/-- The `has_header` (`request.rs` lines 454-464): the first value under `key`
equals `val` up to ASCII case. -/
def hasHeaderCI (headers : List (List Char × List Char))
    (key val : List Char) : Bool :=
  match firstHeaderValue headers key with
  | some v => v.map Char.toLower == val
  | none => false

/-- The incremental request accumulator `RawRequest`
(`request.rs` lines 153-162). Instants are `Nat` time values. -/
structure RawRequest where
  request : Option Builder
  data : List Char
  bytes : Nat
  timeout : Option Nat
  upgrade_websocket : Bool
  content_length : Nat
deriving DecidableEq, Repr

/-- The `RawRequest::extract_content_length` (`request.rs` lines 290-305): reset the
cache to 0, then overwrite it when a Content-Length header is present and its
value parses as `usize`. -/
def RawRequest.extract_content_length (r : RawRequest) : RawRequest :=
  { r with content_length :=
      match r.request with
      | some b =>
        match firstHeaderValue b.headers (chars "content-length") with
        | some v => (parseUsize v).getD 0
        | none => 0
      | none => 0 }

/-- The `RawRequest::extract_upgrade_opts` (`request.rs` lines 278-288): set the
flag (it is never reset) when `Connection: upgrade` and `Upgrade: websocket`
are both present. -/
def RawRequest.extract_upgrade_opts (r : RawRequest) : RawRequest :=
  match r.request with
  | some b =>
    if hasHeaderCI b.headers (chars "connection") (chars "upgrade")
        && hasHeaderCI b.headers (chars "upgrade") (chars "websocket") then
      { r with upgrade_websocket := true }
    else r
  | none => r

/-- The `RawRequest::try_decode` (`request.rs` lines 261-271): decode the head when
it is still missing, then re-extract the upgrade flag and content length. -/
def RawRequest.try_decode (r : RawRequest) : Except Error RawRequest := do
  let r ←
    match r.request with
    | none =>
      match HttpCodec.decode r.data with
      | .error e => .error e
      | .ok none => .ok r
      | .ok (some (b, rest)) => .ok { r with request := some b, data := rest }
    | some _ => .ok r
  .ok r.extract_upgrade_opts.extract_content_length

/-- The `RawRequest::new` (`request.rs` lines 165-178). -/
def RawRequest.new (data : List Char) (timeout : Nat) : Except Error RawRequest :=
  RawRequest.try_decode
    { request := none
      data := data
      bytes := data.length
      timeout := some timeout
      upgrade_websocket := false
      content_length := 0 }

/-- The `RawRequest::next` (`request.rs` lines 180-188): append fresh bytes and
re-run the decode. -/
def RawRequest.next (r : RawRequest) (data : List Char) : Except Error RawRequest :=
  if data.length > 0 then
    RawRequest.try_decode
      { r with bytes := r.bytes + data.length, data := r.data ++ data }
  else
    RawRequest.try_decode r

/-- The `RawRequest::ready` (`request.rs` lines 200-213): head decoded, and when a
positive content length is cached the buffered body must reach it. -/
def RawRequest.ready (r : RawRequest) : Bool :=
  if r.request.isNone then false
  else if r.content_length > 0 then
    if r.data.length < r.content_length then false else true
  else true

/-- The owned `Request` (`request.rs` lines 308-313): parsed head, body bytes,
captured path variables, websocket flag. -/
structure Request where
  req : Builder
  body : List Char
  vars : Option (List (List Char × List Char))
  websocket : Bool
deriving DecidableEq, Repr

/-- The `RawRequest::extract` (`request.rs` lines 215-226): consume into an owned
`Request` whenever the head is decoded (the builder carries no error, so
`req.body(())` always succeeds). -/
def RawRequest.extract (r : RawRequest) : Option Request :=
  match r.request with
  | some b =>
    some { req := b, body := r.data, vars := none, websocket := r.upgrade_websocket }
  | none => none

/-- The `RawRequest::check_timeout` (`request.rs` lines 228-237). -/
def RawRequest.check_timeout (r : RawRequest) (now : Nat) : Bool :=
  match r.timeout with
  | some t => now > t
  | none => false

/-- The `RawRequest::validate` (`request.rs` lines 239-257): a head must be
present, and a positive cached content length must not exceed the configured
maximum. -/
def RawRequest.validate (r : RawRequest) (config : Config) : Except Error Unit :=
  if r.request.isNone then
    .error (Error.new_with_kind .ServerFault
      "request validation failed - no request object")
  else if r.content_length > 0 then
    if r.content_length > config.max_bytes_received then
      .error (too_many_bytes_err r.content_length config.max_bytes_received)
    else .ok ()
  else .ok ()

/-! ## Request re-serialization for the round-trip claim -/

/-- One header line, `"<name>: <value>\r\n"`. -/
def serializeHeader (kv : List Char × List Char) : List Char :=
  kv.1 ++ chars ": " ++ kv.2 ++ chars "\r\n"

/-- Modelled from the spec: `Encode` of the round-trip claim — re-serialize a
decoded builder and its body bytes as an HTTP/1.x request with canonical
whitespace (single spaces, one space after each header colon, CRLF endings).
The codec itself only frames responses, so this request encoder has no
counterpart under `src/` and follows the spec's words. -/
def encodeDecoded (b : Builder) (body : List Char) : List Char :=
  b.method ++ chars " " ++ b.uri ++ chars " " ++ b.version.debugStr
    ++ chars "\r\n" ++ (b.headers.map serializeHeader).flatten
    ++ chars "\r\n" ++ body

/-- The `Encode(Decode(bytes))` of the round-trip claim: decode the bytes with
`HttpCodec::decode` and re-serialize head plus remaining body; `none` when
the decode is partial or fails. -/
def roundTrip (bytes : List Char) : Option (List Char) :=
  match HttpCodec.decode bytes with
  | .ok (some (b, rest)) => some (encodeDecoded b rest)
  | _ => none

/-- A structured HTTP/1.1 request used to describe the syntactically valid
canonical-whitespace byte strings of the round-trip claim (such a byte string
is exactly the serialization of its parts). -/
structure CanonReq where
  method : List Char
  path : List Char
  headers : List (List Char × List Char)
  body : List Char

/-- Serialization of a structured HTTP/1.1 request with canonical whitespace. -/
def CanonReq.serialize (r : CanonReq) : List Char :=
  r.method ++ chars " " ++ r.path ++ chars " " ++ HttpVersion.debugStr .V11
    ++ chars "\r\n" ++ (r.headers.map serializeHeader).flatten
    ++ chars "\r\n" ++ r.body

/-- A well-formed header line: non-empty token name, value without CR/LF and
without a leading space (canonical whitespace). -/
def HeaderWF (kv : List Char × List Char) : Prop :=
  kv.1 ≠ [] ∧ (∀ c ∈ kv.1, isTokenChar c = true)
    ∧ (∀ c ∈ kv.2, isValueChar c = true) ∧ kv.2.head? ≠ some ' '

/-- The round-trip claim's hypotheses on a request: syntactically valid with
canonical whitespace, at most 16 headers, and a recognized content length. -/
def CanonReq.Canonical (r : CanonReq) : Prop :=
  r.method ≠ [] ∧ (∀ c ∈ r.method, isTokenChar c = true)
    ∧ r.path ≠ [] ∧ (∀ c ∈ r.path, isPathChar c = true)
    ∧ r.headers.length ≤ 16
    ∧ (∀ kv ∈ r.headers, HeaderWF kv)
    ∧ (∃ cv, firstHeaderValue r.headers (chars "content-length") = some cv
        ∧ parseUsize cv = some r.body.length)

/-! ## Response framing (`api/handler/codec.rs` lines 29-64) -/

/-- The configured server token (`codec.rs` lines 12-16, `GLOBAL_CODEC`). -/
def serverToken : List Char := chars "index.teggle.io/v1beta1"

/-- The `http::StatusCode` Display rendering used by the encoder's `{}`:
`"<code> <canonical reason>"`. -/
def statusDisplay (code : Nat) : List Char :=
  chars (toString code) ++ chars " "
    ++ chars ((canonicalReason code).getD "<unknown status code>")

/-- Calendar components of an HTTP date. -/
structure HttpDate where
  weekday : String
  day : Nat
  month : String
  year : Nat
  hour : Nat
  minute : Nat
  second : Nat

/-- Two-digit zero padding for date fields. -/
def pad2 (n : Nat) : List Char :=
  if n < 10 then chars "0" ++ chars (toString n) else chars (toString n)

/-- Modelled from the spec: the RFC 7231 IMF-fixdate rendering of the `Date`
header ("`Sun, 06 Nov 1994 08:49:37 GMT`"), produced by the per-thread cached
formatter of `codec.rs` (`mod date`, external `httpdate` crate). -/
def imfFixdate (d : HttpDate) : List Char :=
  chars d.weekday ++ chars ", " ++ pad2 d.day ++ chars " " ++ chars d.month
    ++ chars " " ++ chars (toString d.year) ++ chars " " ++ pad2 d.hour
    ++ chars ":" ++ pad2 d.minute ++ chars ":" ++ pad2 d.second ++ chars " GMT"

/-- The response head handed to the encoder: version, status, application
headers in insertion order. -/
structure ResponseHead where
  version : HttpVersion
  status : Nat
  headers : List (List Char × List Char)
deriving DecidableEq, Repr

/-- The `HttpCodec::encode` (`codec.rs` lines 29-64): one formatted write of
`"{:?} {}\r\nServer: {}\r\nContent-Length: {}\r\nDate: {}\r\n"`, a fold
appending each application header, then the blank separator. The real-time
`Date` rendering is passed in as `date`. -/
def HttpCodec.encode (item : ResponseHead) (dst : List Char)
    (content_length : Nat) (date : List Char) : List Char :=
  let dst := dst
    ++ (item.version.debugStr ++ chars " " ++ statusDisplay item.status
      ++ chars "\r\nServer: " ++ serverToken
      ++ chars "\r\nContent-Length: " ++ chars (toString content_length)
      ++ chars "\r\nDate: " ++ date ++ chars "\r\n")
  let dst := item.headers.foldl
    (fun acc kv => acc ++ kv.1 ++ chars ": " ++ kv.2 ++ chars "\r\n") dst
  dst ++ chars "\r\n"

/-! ## Response building (`api/handler/response.rs`) -/

/-- Framed response bytes plus the close flag
(`api/results.rs` lines 11-42, `struct ResponseBody`). -/
structure ResponseBody where
  body : List Char
  close : Bool
deriving DecidableEq, Repr

/-- The `ResponseBody::new_with_close` (`results.rs` line 31). -/
def ResponseBody.new_with_close (body : List Char) (close : Bool) : ResponseBody :=
  { body := body, close := close }

/-- The response builder (`response.rs` lines 15-19): parts (version, status,
headers), optional body bytes, close flag. -/
structure Response where
  version : HttpVersion
  status : Nat
  headers : List (List Char × List Char)
  body_bytes : Option (List Char)
  close : Bool
deriving DecidableEq, Repr

/-- The `Response::new` (`response.rs` lines 22-33): HTTP/1.0, status 200, no
body, `close = true`. -/
def Response.new : Response :=
  { version := .V10, status := 200, headers := [], body_bytes := none, close := true }

/-- The `Response::header` (`response.rs` lines 78-89): append to the header map
(`HeaderName` stores the name lowercase). -/
def Response.header (r : Response) (name value : List Char) : Response :=
  { r with headers := r.headers ++ [(lowerName name, value)] }

/-- The `Response::body` (`response.rs` lines 92-95). -/
def Response.body (r : Response) (body : List Char) : Response :=
  { r with body_bytes := some body }

/-- The `Response::status` (`response.rs` lines 62-69). -/
def Response.setStatus (r : Response) (status : Nat) : Response :=
  { r with status := status }

/-- The `serde_json` rendering of the `ErrorMsg { status, message }` struct
(`response.rs` lines 155-159); the messages used contain no characters that
JSON escapes. -/
def jsonErrorMsg (status : Nat) (message : String) : List Char :=
  chars "\x7b\"status\":" ++ chars (toString status)
    ++ chars ",\"message\":\"" ++ chars message ++ chars "\"\x7d"

/-- The `Response::json` (`response.rs` lines 98-113): content-type header plus
the serialized body. -/
def Response.json (r : Response) (body : List Char) : Response :=
  (r.header (chars "Content-Type") (chars "application/json")).body body

/-- The `Response::error` (`response.rs` lines 124-129): JSON `ErrorMsg` body,
then the status. -/
def Response.error (r : Response) (status : Nat) (msg : String) : Response :=
  (r.json (jsonErrorMsg status msg)).setStatus status

/-- The `Response::fault` (`response.rs` lines 132-135): a 500 "Server Fault"
error body. -/
def Response.fault (r : Response) : Response :=
  r.error 500 "Server Fault"

/-- The `Response::from_error` (`response.rs` lines 53-59): a fresh response (so
`close = true` from `Response::new`, untouched afterwards) carrying the
error's status and its canonical reason, defaulting to "General Fault". -/
def Response.from_error (e : Error) : Response :=
  Response.new.error e.http_status ((canonicalReason e.http_status).getD "General Fault")

/-- The `Response::encode` (`response.rs` lines 138-152): fails without a body,
otherwise frames head plus body through the codec and keeps the close flag.
The real-time `Date` rendering is passed in as `date`. -/
def Response.encode (r : Response) (date : List Char) : Except Error ResponseBody :=
  match r.body_bytes with
  | some body =>
    .ok (ResponseBody.new_with_close
      (HttpCodec.encode { version := r.version, status := r.status, headers := r.headers }
        [] body.length date ++ body)
      r.close)
  | none => .error (Error.new "encode called on response with no body")

/-! ## Recovery middleware (`api/middleware/recovery.rs` lines 12-35) -/

/-- What the inner chain's invocation did, as observed through
`catch_unwind`: returned a result, or unwound with a payload (a `String` or
`&'static str` payload is downcastable to text). -/
inductive HandlerOutcome where
  | normal (r : Except Error Unit)
  | panicked (payload : Option String)

/-- The `middleware_recovery` (`recovery.rs` lines 12-35): pass a normal result
through; on an unwind, log the payload and return `res.fault()` — which
writes the 500 "Server Fault" body onto the response and returns `Ok(())`. -/
def middleware_recovery (res : Response) (outcome : HandlerOutcome) :
    Except Error Unit × Response :=
  match outcome with
  | .normal r => (r, res)
  | .panicked _ => (.ok (), res.fault)

/-! ## Connection egress (`api/server/connection.rs`) -/

/-- The per-socket connection, with the TLS session modelled by its queued
plaintext writes and close-notify flag. `wakerToken` is the token of the
deferral inbox's waker created in `Connection::new` (`conn_id + 1`). -/
structure Connection where
  token : Nat
  wakerToken : Nat
  tlsWrites : List Char
  closeNotifyQueued : Bool
  closing : Bool
  closed : Bool
  close_notify_sent : Bool
deriving DecidableEq, Repr

/-- The `Connection::new` (`connection.rs` lines 50-79): socket token `conn_id`,
deferral waker at `Token(conn_id + 1)`, all flags clear. -/
def Connection.new (conn_id : Nat) : Connection :=
  { token := conn_id
    wakerToken := conn_id + 1
    tlsWrites := []
    closeNotifyQueued := false
    closing := false
    closed := false
    close_notify_sent := false }

/-- The `Connection::write` (`connection.rs` lines 562-576): queue plaintext into
the TLS session (the error paths set `closing`; not exercised here). -/
def Connection.write (c : Connection) (plaintext : List Char) : Connection :=
  { c with tlsWrites := c.tlsWrites ++ plaintext }

/-- The `Connection::send_close_notify` (`connection.rs` lines 424-429): queue the
TLS close-notify at most once. -/
def Connection.send_close_notify (c : Connection) : Connection :=
  if !c.close_notify_sent then
    { c with closeNotifyQueued := true, close_notify_sent := true }
  else c

/-- The `Connection::send_response` (`connection.rs` lines 287-306): no-op on a
closed connection; otherwise write the framed bytes and, when the response
says close, queue the close-notify. -/
def Connection.send_response (c : Connection) (res : ResponseBody) : Connection :=
  if c.closed then c
  else
    let c := c.write res.body
    if res.close then c.send_close_notify else c

/-! ## Association lists modelling `HashMap` registries -/

/-- Lookup by key, `HashMap::get`. -/
def lookupA {α : Type} : List (Nat × α) → Nat → Option α
  | [], _ => none
  | (k, v) :: rest, key => if k = key then some v else lookupA rest key

/-- Remove a key, `HashMap::remove` (keys are unique in the maps modelled). -/
def removeA {α : Type} : List (Nat × α) → Nat → List (Nat × α)
  | [], _ => []
  | (k, v) :: rest, key =>
    if k = key then removeA rest key else (k, v) :: removeA rest key

/-- Insert a key, `HashMap::insert`: replace an existing entry or append. -/
def insertA {α : Type} : List (Nat × α) → Nat → α → List (Nat × α)
  | [], key, v => [(key, v)]
  | (k, w) :: rest, key, v =>
    if k = key then (key, v) :: rest else (k, w) :: insertA rest key v

/-! ## Server accept and event dispatch (`api/server/server.rs`) -/

/-- The `u32::MAX as usize` (`server.rs` lines 44-45). -/
def U32_MAX : Nat := 4294967295

/-- The `LISTENER_TOKEN` (`server.rs` line 26). -/
def LISTENER_TOKEN : Nat := 0

/-- The `DEFERRAL_TOKEN` (`server.rs` line 27): the single waker token through
which all deferral wakeups are delivered. -/
def DEFERRAL_TOKEN : Nat := 5

/-- The `MIO_SERVER_OFFSET` (`server.rs` line 43): base of the connection range. -/
def MIO_SERVER_OFFSET : Nat := 10

/-- The `MIO_EXEC_OFFSET` (`server.rs` line 44). -/
def MIO_EXEC_OFFSET : Nat := MIO_SERVER_OFFSET + U32_MAX

/-- The `MIO_HTTPC_OFFSET` (`server.rs` line 45). -/
def MIO_HTTPC_OFFSET : Nat := MIO_EXEC_OFFSET + U32_MAX

/-- The server state the claims depend on: the connection registry keyed by
token and the rolling next id (`server.rs` lines 47-57). -/
structure ServerModel where
  connections : List (Nat × Connection)
  nextId : Nat

/-- The fresh server: empty registry, `next_id = MIO_SERVER_OFFSET`
(`server.rs` line 77). -/
def ServerModel.init : ServerModel :=
  { connections := [], nextId := MIO_SERVER_OFFSET }

/-- The `Server::accept` (`server.rs` lines 109-137): assign `Token(next_id)`,
advance `next_id` by one (wrapping to the base when `next_id + 1` would reach
`MIO_SERVER_OFFSET + u32::MAX`), insert the new connection. Returns the new
state and the assigned token. -/
def ServerModel.accept (s : ServerModel) : ServerModel × Nat :=
  let token := s.nextId
  let nextId :=
    if s.nextId + 1 ≥ MIO_SERVER_OFFSET + U32_MAX then MIO_SERVER_OFFSET
    else s.nextId + 1
  ({ connections := insertA s.connections token (Connection.new token)
     nextId := nextId },
   token)

/-- How `Server::handle_event` dispatches a token (`server.rs` lines 139-189). -/
inductive EventClass where
  | deferralDrain
  | httpcEvent
  | execReady
  | connEvent (token : Nat)
  | staleIgnored (token : Nat)
  | unhandled
deriving DecidableEq, Repr

/-- The classification performed by `Server::handle_event`
(`server.rs` lines 139-189): the deferral waker token first, then the
`HTTPC` / `EXEC` / connection ranges by base offset; a token in the
connection range reaches the connection registered under exactly that token
and is ignored when absent. -/
def ServerModel.classifyEvent (s : ServerModel) (token : Nat) : EventClass :=
  if token = DEFERRAL_TOKEN then .deferralDrain
  else if token ≥ MIO_HTTPC_OFFSET then .httpcEvent
  else if token ≥ MIO_EXEC_OFFSET then .execReady
  else if token ≥ MIO_SERVER_OFFSET then
    if (lookupA s.connections token).isSome then .connEvent token
    else .staleIgnored token
  else .unhandled

/-! ## Outbound HTTP client reactor (`api/reactor/httpc.rs`) -/

/-- The shared per-call state `HttpcCall` (`httpc.rs` lines 142-147): the
pre-spawn builder, the live engine call, the error slot, and the future's
waker — builder, call and waker contents are opaque handles. -/
structure HttpcCall where
  builder : Option Nat
  call : Option Nat
  err : Option Error
  waker : Option Nat
deriving DecidableEq, Repr

/-- The error installed when an outbound call is aborted or timed out
(`httpc.rs` lines 197-199). -/
def httpcTimedOutErr : Error :=
  Error.new_with_kind .HttpClientTimedOut "HTTP request aborted/timed out"

/-- The `HttpcCall::abort` (`httpc.rs` lines 195-209): install
`HttpClientTimedOut` unless an error is already present, abort and drop the
live call, take and wake the waker. Returns the new state, the dropped
engine call, and the woken waker. -/
def HttpcCall.abort (st : HttpcCall) : HttpcCall × Option Nat × Option Nat :=
  let st1 := if st.err.isNone then { st with err := some httpcTimedOutErr } else st
  let (st2, dropped) :=
    match st1.call with
    | some c => ({ st1 with call := none }, some c)
    | none => (st1, none)
  ({ st2 with waker := none }, dropped, st2.waker)

/-- What polling `HttpcCallFuture` resolves to. -/
inductive PollR where
  | readyErr (e : Error)
  | readyOk
  | pending
deriving DecidableEq, Repr

/-- The `HttpcCallFuture::poll` (`httpc.rs` lines 234-250): a stored error
resolves the future with it; a finished live call (per the engine's
`is_done`, passed in) resolves `Ok`; otherwise store the waker and stay
pending. Returns the outcome and the updated state. -/
def HttpcCallFuture.poll (st : HttpcCall) (newWaker : Nat)
    (engineDone : Nat → Bool) : PollR × HttpcCall :=
  match st.err with
  | some e => (.readyErr e, { st with err := none })
  | none =>
    if st.builder.isNone then
      match st.call with
      | some c =>
        if engineDone c then (.readyOk, { st with call := none })
        else (.pending, { st with waker := some newWaker })
      | none => (.pending, { st with waker := some newWaker })
    else (.pending, { st with waker := some newWaker })

/-- The loop body of `HttpcReactor::check_timeouts` (`httpc.rs` lines
93-103), iterating the engine-reported timed-out call references: remove
each present map entry and abort its call. Accumulates the final state of
each aborted call (the `Arc`-shared state its future observes), the woken
wakers, and the dropped engine calls. -/
def checkTimeoutsGo :
    List Nat → List (Nat × HttpcCall) →
    List (Nat × HttpcCall) → List Nat → List Nat →
    List (Nat × HttpcCall) × List (Nat × HttpcCall) × List Nat × List Nat
  | [], calls, aborted, woken, dropped => (calls, aborted, woken, dropped)
  | cref :: rest, calls, aborted, woken, dropped =>
    match lookupA calls cref with
    | some st =>
      let r := HttpcCall.abort st
      checkTimeoutsGo rest (removeA calls cref)
        (aborted ++ [(cref, r.1)]) (woken ++ r.2.2.toList)
        (dropped ++ r.2.1.toList)
    | none => checkTimeoutsGo rest calls aborted woken dropped

/-- The `HttpcReactor::check_timeouts` (`httpc.rs` lines 93-103) on the reactor's
call map, given the timed-out references reported by the engine's
`timeout()`. -/
def HttpcReactor.check_timeouts (calls : List (Nat × HttpcCall))
    (timedOut : List Nat) :
    List (Nat × HttpcCall) × List (Nat × HttpcCall) × List Nat × List Nat :=
  checkTimeoutsGo timedOut calls [] [] []

/-! ## Router (`api/handler/router.rs`) -/

/-- The capture sentinel used in route keys (`router.rs` line 17). -/
def CAPTURE_PLACEHOLDER : List Char := chars "*CAPTURE*"

/-- Route tokens (`router.rs` lines 361-365): literal path segments and named
captures. -/
inductive RouteToken where
  | path (value : List Char)
  | capture (name : List Char)
deriving DecidableEq, Repr

/-- The `path_into_trimmed_string` (`router.rs` lines 395-407): strip one leading
slash. -/
def path_into_trimmed_string (path : List Char) : List Char :=
  match path with
  | c :: rest => if c = '/' then rest else path
  | [] => path

/-- Rust `str::split("/")`: the (possibly empty) pieces between slashes. -/
def splitOnSlash : List Char → List (List Char)
  | [] => [[]]
  | c :: rest =>
    if c = '/' then [] :: splitOnSlash rest
    else
      match splitOnSlash rest with
      | s :: ss => (c :: s) :: ss
      | [] => [[c]]

/-- The non-empty segments of a path after trimming the leading slash, as
computed both by registration (`extract_route_handler_tokens`, skipping empty
parts) and matching (`Router::find`, filtering empty parts). -/
def segmentsOf (path : List Char) : List (List Char) :=
  (splitOnSlash (path_into_trimmed_string path)).filter (fun p => !p.isEmpty)

/-- The token of one segment (`router.rs` lines 376-390): a leading `:` makes
a capture of the rest of the segment, else a literal path token. -/
def segToken (seg : List Char) : RouteToken :=
  match seg with
  | c :: name => if c = ':' then .capture name else .path seg
  | [] => .path seg

/-- The key part of one segment: captures collapse to the sentinel. -/
def segKey (seg : List Char) : List Char :=
  match seg with
  | c :: _ => if c = ':' then CAPTURE_PLACEHOLDER else seg
  | [] => seg

/-- Join pieces with `/`, Rust `Vec::join("/")`. -/
def joinSlash : List (List Char) → List Char
  | [] => []
  | [p] => p
  | p :: rest => p ++ chars "/" ++ joinSlash rest

/-- The `extract_route_handler_tokens` (`router.rs` lines 367-393): the unique
route key `METHOD/seg1/.../segN` (captures as the sentinel) and the token
list of the non-empty segments. -/
def extract_route_handler_tokens (method : List Char) (path : List Char) :
    List Char × List RouteToken :=
  (joinSlash (method :: (segmentsOf path).map segKey),
   (segmentsOf path).map segToken)

/-- A registered route (`router.rs` lines 289-296), the handler as an opaque
id. -/
structure RouteHandler where
  unique : List Char
  method : List Char
  tokens : List RouteToken
  handlerId : Nat

/-- The `RouteHandler::new` (`router.rs` lines 298-314). -/
def RouteHandler.make (method : List Char) (path : List Char) (handlerId : Nat) :
    RouteHandler :=
  let r := extract_route_handler_tokens method path
  { unique := r.1, method := method, tokens := r.2, handlerId := handlerId }

/-- Insert a capture binding, `HashMap::insert` over string keys. -/
def insertCapture (m : List (List Char × List Char)) (k v : List Char) :
    List (List Char × List Char) :=
  match m with
  | [] => [(k, v)]
  | (k0, v0) :: rest =>
    if k0 = k then (k, v) :: rest else (k0, v0) :: insertCapture rest k v

/-- The token-by-token matching loop inside `Router::find` (`router.rs` lines
161-190), run once the segment counts are known to be equal: a `Path` token
must equal its segment; a `Capture` token binds it. -/
def matchTokens : List RouteToken → List (List Char) →
    List (List Char × List Char) → Option (List (List Char × List Char))
  | [], _, acc => some acc
  | _ :: _, [], _ => none
  | .path v :: ts, p :: ps, acc =>
    if v = p then matchTokens ts ps acc else none
  | .capture n :: ts, p :: ps, acc => matchTokens ts ps (insertCapture acc n p)

/-- The `Router::find` (`router.rs` lines 136-216) over a route table: skip routes
whose method or segment count differ, return the first token-match together
with its captures. The list order stands in for the `HashMap` iteration
order of the source (which is unordered; the claims involve tables whose
routes match unambiguously). -/
def Router.find (routes : List RouteHandler) (method : List Char)
    (path : List Char) : Option (Nat × List (List Char × List Char)) :=
  match routes with
  | [] => none
  | r :: rest =>
    if r.method = method ∧ r.tokens.length = (segmentsOf path).length then
      match matchTokens r.tokens (segmentsOf path) [] with
      | some captures => some (r.handlerId, captures)
      | none => Router.find rest method path
    else Router.find rest method path

/-- A deferral inbox exercising the futures bound: `max_futures_queue = Some 1`,
no queued callbacks, one future already queued. -/
def c2FailingDeferral : Deferral Unit Unit :=
  { waker := { token := 11, readiness := false }
    defers := []
    futures := [()]
    max_defers_queue := none
    max_futures_queue := some 1 }

/-- A deferral inbox at its callback bound: `max_defers_queue = Some 1` with one
queued callback. -/
def c2FullDefers : Deferral Unit Unit :=
  { waker := { token := 11, readiness := false }
    defers := [()]
    futures := []
    max_defers_queue := some 1
    max_futures_queue := some 1 }

/-- A complete request head followed by an incomplete 5-byte body. -/
def c3Bytes : List Char := chars "POST /x HTTP/1.1\r\ncontent-length: 5\r\n\r\nab"

/-- A syntactically valid canonical-whitespace HTTP/1.1 request whose `Host`
header name is not lowercase. -/
def c5Req : CanonReq :=
  { method := chars "GET"
    path := chars "/p"
    headers := [(chars "Host", chars "a"), (chars "content-length", chars "0")]
    body := [] }

/-- The bytes of `c5Req`. -/
def c5Bytes : List Char :=
  chars "GET /p HTTP/1.1\r\nHost: a\r\ncontent-length: 0\r\n\r\n"

/-- A decoded head with no Content-Length header, over a stale cached length. -/
def c9Raw : RawRequest :=
  { request := some
      { method := chars "GET", uri := chars "/", version := .V11, headers := [] }
    data := []
    bytes := 16
    timeout := none
    upgrade_websocket := false
    content_length := 7 }

/-- The configuration the server boots with (`server.rs` lines 29-36,
247-252), queue maxima unset. -/
def cfgDefault : Config :=
  { max_bytes_received := 50 * 1024
    request_timeout := 10
    exec_timeout := 7200
    max_defers_queue := none
    max_futures_queue := none }

/-- An outbound call awaiting its engine response: live call, no error, a
registered future waker. -/
def c7Call : HttpcCall :=
  { builder := none, call := some 7, err := none, waker := some 1 }

end Teggle

namespace Teggle

/-! ## Helper lemmas -/

/-- Folding header lines onto a buffer appends their concatenation. -/
theorem foldl_header_lines :
    ∀ (hs : List (List Char × List Char)) (init : List Char),
      hs.foldl (fun acc kv => acc ++ kv.1 ++ chars ": " ++ kv.2 ++ chars "\r\n") init
        = init ++ (hs.map (fun kv => kv.1 ++ chars ": " ++ kv.2 ++ chars "\r\n")).flatten
  | [], init => by simp
  | kv :: rest, init => by
    simp only [List.foldl_cons, List.map_cons, List.flatten_cons]
    rw [foldl_header_lines rest]
    simp [List.append_assoc]

/-- The `scanToken` consumes exactly a prefix all of whose characters satisfy the
predicate when the next character does not. -/
theorem scanToken_prefix (p : Char → Bool) :
    ∀ (xs : List Char) (y : Char) (ys : List Char),
      (∀ c ∈ xs, p c = true) → p y = false →
      scanToken p (xs ++ y :: ys) = (xs, y :: ys)
  | [], y, ys, _, hy => by simp [scanToken, hy]
  | x :: xs, y, ys, hxs, hy => by
    have hx : p x = true := hxs x (by simp)
    simp [scanToken, hx,
      scanToken_prefix p xs y ys (fun c hc => hxs c (List.mem_cons_of_mem _ hc)) hy]

/-- The `expectLit` accepts its own literal and returns the remainder. -/
theorem expectLit_self : ∀ (lit rest : List Char), expectLit lit (lit ++ rest) = .ok rest
  | [], _ => rfl
  | c :: lit, rest => by simp [expectLit, expectLit_self lit rest]

/-- Token characters are not CR. -/
theorem tokenChar_ne_cr {c : Char} (h : isTokenChar c = true) : ¬ c = '\r' := by
  intro he
  subst he
  exact absurd h (by decide)

/-- A serialized well-formed header block followed by the blank line parses
back to exactly its headers, provided the slot budget suffices. -/
theorem parseHeaders_serialized :
    ∀ (hs : List (List Char × List Char)) (slots : Nat)
      (acc : List (List Char × List Char)) (rest : List Char),
      (∀ kv ∈ hs, HeaderWF kv) → hs.length ≤ slots →
      parseHeaders slots acc ((hs.map serializeHeader).flatten ++ chars "\r\n" ++ rest)
        = .complete (acc ++ hs) rest := by
  intro hs
  induction hs with
  | nil =>
    intro slots acc rest _ _
    cases slots <;> simp [parseHeaders, expectLit_self]
  | cons kv hs ih =>
    intro slots acc rest hwf hlen
    obtain ⟨hne, htok, hval, hhead⟩ := hwf kv (by simp)
    obtain ⟨c, cs, hkv1⟩ : ∃ c cs, kv.1 = c :: cs := by
      cases h : kv.1 with
      | nil => exact absurd h hne
      | cons c cs => exact ⟨c, cs, rfl⟩
    cases slots with
    | zero => simp at hlen
    | succ slots =>
      have hctok : isTokenChar c = true := htok c (by simp [hkv1])
      have hsplit :
          (((kv :: hs).map serializeHeader).flatten ++ chars "\r\n" ++ rest)
            = c :: (cs ++ ':' :: ' ' ::
                (kv.2 ++ '\r' :: '\n' ::
                  ((hs.map serializeHeader).flatten ++ chars "\r\n" ++ rest))) := by
        simp [serializeHeader, hkv1, chars, List.append_assoc]
      rw [hsplit]
      have hscan1 :
          scanToken isTokenChar
            (c :: (cs ++ ':' :: ' ' ::
              (kv.2 ++ '\r' :: '\n' ::
                ((hs.map serializeHeader).flatten ++ chars "\r\n" ++ rest))))
          = (c :: cs, ':' :: ' ' ::
              (kv.2 ++ '\r' :: '\n' ::
                ((hs.map serializeHeader).flatten ++ chars "\r\n" ++ rest))) := by
        have := scanToken_prefix isTokenChar (c :: cs) ':'
          (' ' :: (kv.2 ++ '\r' :: '\n' ::
            ((hs.map serializeHeader).flatten ++ chars "\r\n" ++ rest)))
          (fun d hd => htok d (by simp [hkv1] at hd ⊢; exact hd))
          (by decide)
        simpa using this
      have hscan2 :
          scanToken (fun c => c = ' ')
            (' ' :: (kv.2 ++ '\r' :: '\n' ::
              ((hs.map serializeHeader).flatten ++ chars "\r\n" ++ rest)))
          = ([' '], kv.2 ++ '\r' :: '\n' ::
              ((hs.map serializeHeader).flatten ++ chars "\r\n" ++ rest)) := by
        cases hv2 : kv.2 with
        | nil =>
          have := scanToken_prefix (fun c => c = ' ') [' '] '\r'
            ('\n' :: ((hs.map serializeHeader).flatten ++ chars "\r\n" ++ rest))
            (by intro c hc; simp at hc; simp [hc]) (by decide)
          simpa [hv2] using this
        | cons d ds =>
          have hd : (d = ' ') = False := by
            simp [hv2] at hhead
            simp [hhead]
          have := scanToken_prefix (fun c => c = ' ') [' '] d
            (ds ++ '\r' :: '\n' ::
              ((hs.map serializeHeader).flatten ++ chars "\r\n" ++ rest))
            (by intro c hc; simp at hc; simp [hc]) (by simp [hd])
          simpa [hv2] using this
      have hscan3 :
          scanToken isValueChar
            (kv.2 ++ '\r' :: '\n' ::
              ((hs.map serializeHeader).flatten ++ chars "\r\n" ++ rest))
          = (kv.2, '\r' :: '\n' ::
              ((hs.map serializeHeader).flatten ++ chars "\r\n" ++ rest)) :=
        scanToken_prefix isValueChar kv.2 '\r'
          ('\n' :: ((hs.map serializeHeader).flatten ++ chars "\r\n" ++ rest))
          hval (by decide)
      have hcr : (c = '\r') = False := by
        simp [tokenChar_ne_cr hctok]
      have hrec := ih slots (acc ++ [(c :: cs, kv.2)]) rest
        (fun x hx => hwf x (List.mem_cons_of_mem _ hx)) (by simp at hlen; omega)
      simp only [parseHeaders, expectLit, hcr, if_false, hscan1]
      simp only [List.isEmpty_cons, Bool.false_eq_true, if_false, if_true]
      rw [hscan2]
      rw [hscan3]
      have hexp : expectLit (chars "\r\n")
          ('\r' :: '\n' :: ((hs.map serializeHeader).flatten ++ chars "\r\n" ++ rest))
          = .ok ((hs.map serializeHeader).flatten ++ chars "\r\n" ++ rest) :=
        expectLit_self (chars "\r\n") _
      rw [hexp]
      dsimp only
      rw [hrec]
      simp [← hkv1]

/-- A serialized canonical request parses back to exactly its parts, the
remainder being its body. -/
theorem parseHead_serialized (r : CanonReq) (hc : r.Canonical) :
    parseHead r.serialize =
      .complete { method := r.method, path := r.path, version := 1, headers := r.headers }
        r.body := by
  obtain ⟨hm, hmtok, hp, hptok, hlen, hwf, -⟩ := hc
  have hmE : r.method.isEmpty = false := by
    cases hM : r.method with
    | nil => exact absurd hM hm
    | cons a as => rfl
  have hpE : r.path.isEmpty = false := by
    cases hP : r.path with
    | nil => exact absurd hP hp
    | cons a as => rfl
  have hser : r.serialize
      = r.method ++ ' ' ::
          (r.path ++ ' ' ::
            (chars "HTTP/1." ++ '1' :: '\r' :: '\n' ::
              ((r.headers.map serializeHeader).flatten ++ chars "\r\n" ++ r.body))) := by
    simp [CanonReq.serialize, HttpVersion.debugStr, chars, List.append_assoc]
  rw [hser]
  have hscanM := scanToken_prefix isTokenChar r.method ' '
    (r.path ++ ' ' ::
      (chars "HTTP/1." ++ '1' :: '\r' :: '\n' ::
        ((r.headers.map serializeHeader).flatten ++ chars "\r\n" ++ r.body)))
    hmtok (by decide)
  have hscanP := scanToken_prefix isPathChar r.path ' '
    (chars "HTTP/1." ++ '1' :: '\r' :: '\n' ::
      ((r.headers.map serializeHeader).flatten ++ chars "\r\n" ++ r.body))
    hptok (by decide)
  have hsp1 : expectLit (chars " ")
      (' ' :: (r.path ++ ' ' ::
        (chars "HTTP/1." ++ '1' :: '\r' :: '\n' ::
          ((r.headers.map serializeHeader).flatten ++ chars "\r\n" ++ r.body))))
      = .ok (r.path ++ ' ' ::
        (chars "HTTP/1." ++ '1' :: '\r' :: '\n' ::
          ((r.headers.map serializeHeader).flatten ++ chars "\r\n" ++ r.body))) :=
    expectLit_self (chars " ") _
  have hlit : expectLit (chars " HTTP/1.")
      (' ' :: (chars "HTTP/1." ++ '1' :: '\r' :: '\n' ::
        ((r.headers.map serializeHeader).flatten ++ chars "\r\n" ++ r.body)))
      = .ok ('1' :: '\r' :: '\n' ::
        ((r.headers.map serializeHeader).flatten ++ chars "\r\n" ++ r.body)) :=
    expectLit_self (chars " HTTP/1.") _
  have hcrlf : expectLit (chars "\r\n")
      ('\r' :: '\n' ::
        ((r.headers.map serializeHeader).flatten ++ chars "\r\n" ++ r.body))
      = .ok ((r.headers.map serializeHeader).flatten ++ chars "\r\n" ++ r.body) :=
    expectLit_self (chars "\r\n") _
  have hhdrs := parseHeaders_serialized r.headers 16 [] r.body hwf hlen
  simp only [parseHead, hscanM]
  try dsimp only
  simp only [hmE, Bool.false_eq_true, if_false, hsp1]
  try dsimp only
  simp only [hscanP]
  try dsimp only
  simp only [hpE, Bool.false_eq_true, if_false, hlit]
  try dsimp only
  simp only [hcrlf]
  try dsimp only
  simp only [hhdrs]
  simp

/-- The `HttpCodec::decode` on a serialized canonical request returns the builder
with lowercased header names and the body bytes. -/
theorem decode_serialized (r : CanonReq) (hc : r.Canonical) :
    HttpCodec.decode r.serialize =
      .ok (some ({ method := r.method, uri := r.path, version := .V11
                   headers := r.headers.map (fun kv => (lowerName kv.1, kv.2)) },
                 r.body)) := by
  simp [HttpCodec.decode, parseHead_serialized r hc]

/-! ## C5 — request round-trip -/

/-- C5 (counterexample): `c5Bytes` is a syntactically valid HTTP/1.1 request
with canonical whitespace, two headers and a recognized content length, yet
`Encode(Decode(c5Bytes))` differs from `c5Bytes`: the `Host` header name
comes back lowercased (a change the claim's "modulo canonical whitespace"
does not allow). -/
theorem c5_counterexample :
    CanonReq.serialize c5Req = c5Bytes ∧
    c5Req.Canonical ∧
    roundTrip c5Bytes ≠ some c5Bytes ∧
    roundTrip c5Bytes =
      some (chars "GET /p HTTP/1.1\r\nhost: a\r\ncontent-length: 0\r\n\r\n") := by
  refine ⟨by decide,
    ⟨by decide, by decide, by decide, by decide, by decide, ?_,
      ⟨chars "0", by decide, by decide⟩⟩,
    by decide, by decide⟩
  intro kv hkv
  simp [c5Req] at hkv
  rcases hkv with h | h <;> subst h <;>
    exact ⟨by decide, by decide, by decide, by decide⟩

/-- C5 (amended): for a byte string that is a syntactically valid HTTP/1.1
request with canonical whitespace, at most 16 headers, a recognized content
length, and — as the counterexample forces — header names already lowercase,
encoding the result of decoding it reproduces the original bytes. -/
theorem c5_roundtrip_canonical (r : CanonReq) (hc : r.Canonical)
    (hlow : ∀ kv ∈ r.headers, lowerName kv.1 = kv.1) :
    roundTrip r.serialize = some r.serialize := by
  have hmap : r.headers.map (fun kv => (lowerName kv.1, kv.2)) = r.headers := by
    conv_rhs => rw [← List.map_id r.headers]
    refine List.map_congr_left ?_
    intro kv hkv
    simp [hlow kv hkv]
  simp only [roundTrip]
  rw [decode_serialized r hc]
  simp [encodeDecoded, hmap, CanonReq.serialize, HttpVersion.debugStr]

/-- A canonical request with lowercase header names. -/
def c5CanonEx : CanonReq :=
  { method := chars "GET"
    path := chars "/p"
    headers := [(chars "content-length", chars "0")]
    body := [] }

/-- C5 (witness): the round trip reproduces the serialized bytes of a
concrete canonical request with lowercase header names. -/
theorem c5_roundtrip_canonical_witness :
    roundTrip c5CanonEx.serialize = some c5CanonEx.serialize :=
  c5_roundtrip_canonical c5CanonEx
    ⟨by decide, by decide, by decide, by decide, by decide,
      by
        intro kv hkv
        simp [c5CanonEx] at hkv
        subst hkv
        exact ⟨by decide, by decide, by decide, by decide⟩,
      ⟨chars "0", by decide, by decide⟩⟩
    (by decide)

/-! ## C1 — connection tokens and event dispatch -/

/-- C1 (counterexample): the claim says every accepted connection receives an
even identifier and that the next id advances by two. From the fresh server,
the first accept assigns token 10 and advances `next_id` to 11 (not 12), and
the second accept assigns the odd token 11, which `handle_event` then treats
as a socket event of connection 11 itself, not as a deferral wakeup of
connection 10. -/
theorem c1_counterexample :
    (ServerModel.accept ServerModel.init).2 = 10 ∧
    (ServerModel.accept ServerModel.init).1.nextId = 11 ∧
    (ServerModel.accept (ServerModel.accept ServerModel.init).1).2 = 11 ∧
    (ServerModel.accept (ServerModel.accept ServerModel.init).1).2 % 2 = 1 ∧
    ServerModel.classifyEvent (ServerModel.accept (ServerModel.accept ServerModel.init).1).1 11
      = .connEvent 11 := by
  decide

/-! ## C2 — deferral queue bounds -/

/-- C2 (code bug): `Deferral::spawn` compares the length of the `defers`
queue against `max_futures_queue`, so with `max_futures_queue = Some 1`, an
empty `defers` queue and one future already queued, a further `spawn`
succeeds and the futures queue grows to 2, exceeding its configured maximum;
`defer` at its own bound rejects as specified. -/
theorem c2_spawn_overflow_eval :
    c2FailingDeferral.max_futures_queue = some 1 ∧
    c2FailingDeferral.futures.length = 1 ∧
    (c2FailingDeferral.spawn ()).isOk = true ∧
    (c2FailingDeferral.spawn ()).toOption.map (fun d => d.futures.length) = some 2 ∧
    (c2FullDefers.defer ()).isOk = false := by
  decide

/-! ## C3 — extract versus ready -/

/-- C3 (counterexample): the claim says `extract()` returning an owned request
implies `ready()` held. On a raw request whose head is decoded with
`content-length: 5` but whose buffered body holds only 2 bytes, `ready()` is
false while `extract()` still returns an owned request. -/
theorem c3_counterexample :
    (RawRequest.new c3Bytes 100).toOption.map
      (fun r => (r.extract.isSome, r.ready, r.content_length, r.data.length))
      = some (true, false, 5, 2) := by
  decide

/-- C3 (amended): `extract()` succeeds exactly when the head is decoded — it
does not require `ready()` — and `ready()` holds exactly when the head is
decoded and the buffered body length reaches the cached content length. -/
theorem c3_extract_ready (r : RawRequest) :
    (r.extract.isSome = r.request.isSome) ∧
    (r.ready = true ↔ r.request.isSome = true ∧ r.content_length ≤ r.data.length) := by
  constructor
  · cases h : r.request <;> simp [RawRequest.extract, h]
  · cases h : r.request with
    | none => simp [RawRequest.ready, h]
    | some b =>
      by_cases h1 : r.content_length > 0
      · by_cases h2 : r.data.length < r.content_length
        · simp only [RawRequest.ready, h, Option.isNone_some, Bool.false_eq_true,
            if_false, h1, if_true, h2]
          simp; omega
        · simp only [RawRequest.ready, h, Option.isNone_some, Bool.false_eq_true,
            if_false, h1, if_true, h2]
          simp; omega
      · simp only [RawRequest.ready, h, Option.isNone_some, Bool.false_eq_true,
          if_false, h1]
        simp; omega

/-! ## C4 — response head framing -/

/-- C4: `HttpCodec::encode` appends to the buffer exactly the version and
status line terminated by CRLF, the Server header with the configured token,
the Content-Length header, the Date header in IMF-fixdate form, each
application header in insertion order as `"<name>: <value>\r\n"`, and the
blank separator, in that order. -/
theorem c4_encode_layout (item : ResponseHead) (dst : List Char) (n : Nat)
    (d : HttpDate) :
    HttpCodec.encode item dst n (imfFixdate d) =
      dst ++ (item.version.debugStr ++ chars " " ++ statusDisplay item.status ++ chars "\r\n")
        ++ (chars "Server: " ++ serverToken ++ chars "\r\n")
        ++ (chars "Content-Length: " ++ chars (toString n) ++ chars "\r\n")
        ++ (chars "Date: " ++ imfFixdate d ++ chars "\r\n")
        ++ (item.headers.map (fun kv => kv.1 ++ chars ": " ++ kv.2 ++ chars "\r\n")).flatten
        ++ chars "\r\n" := by
  have hsrv : chars "\r\nServer: " = chars "\r\n" ++ chars "Server: " := by decide
  have hcl : chars "\r\nContent-Length: " = chars "\r\n" ++ chars "Content-Length: " := by
    decide
  have hdt : chars "\r\nDate: " = chars "\r\n" ++ chars "Date: " := by decide
  simp only [HttpCodec.encode, foldl_header_lines]
  rw [hsrv, hcl, hdt]
  simp [List.append_assoc]

/-! ## C6 — recovery middleware -/

/-- C6 (counterexample): the claim says an unwind is converted into a
`ServerFault` error carrying the panic payload string. Catching a panic with
payload "boom", the middleware instead returns `Ok(())` — the payload is not
carried in any error — after writing the 500 "Server Fault" body onto the
response. -/
theorem c6_counterexample :
    (middleware_recovery Response.new (.panicked (some "boom"))).1 = Except.ok () ∧
    (middleware_recovery Response.new (.panicked (some "boom"))).1 ≠
      Except.error (Error.new_with_kind .ServerFault "boom") ∧
    (middleware_recovery Response.new (.panicked (some "boom"))).2.status = 500 ∧
    (middleware_recovery Response.new (.panicked (some "boom"))).2.body_bytes =
      some (jsonErrorMsg 500 "Server Fault") := by
  refine ⟨rfl, ?_, rfl, rfl⟩
  intro h
  exact nomatch h

/-- C6 (amended): the recovery middleware passes normal results (`Ok` or
`Err`) through unchanged, and converts an unwind into the 500 "Server Fault"
error response written onto the response by `res.fault()`, itself returning
`Ok(())`; the panic payload string is only logged, not propagated. -/
theorem c6_recovery_behavior (res : Response) (r : Except Error Unit)
    (p : Option String) :
    middleware_recovery res (.normal r) = (r, res) ∧
    middleware_recovery res (.panicked p) = (.ok (), res.fault) ∧
    res.fault.status = 500 ∧
    res.fault.body_bytes = some (jsonErrorMsg 500 "Server Fault") ∧
    res.fault.close = res.close := by
  refine ⟨rfl, rfl, ?_, ?_, ?_⟩ <;>
    simp [Response.fault, Response.error, Response.json, Response.body,
      Response.header, Response.setStatus]

/-! ## C9 — absent or unparseable Content-Length -/

/-- C9: when the decoded head has no Content-Length header, or its value does
not parse as an unsigned integer, the re-extraction caches `content_length =
0`; consequently `ready()` is true as soon as the head is decoded, and
`validate()` accepts the request under any configured maximum. -/
theorem c9_no_content_length (r : RawRequest) (b : Builder) (config : Config)
    (hb : r.request = some b)
    (hcl : firstHeaderValue b.headers (chars "content-length") = none ∨
      ∃ v, firstHeaderValue b.headers (chars "content-length") = some v ∧
        parseUsize v = none) :
    r.extract_content_length.content_length = 0 ∧
    r.extract_content_length.ready = true ∧
    r.extract_content_length.validate config = .ok () := by
  have h0 : r.extract_content_length.content_length = 0 := by
    rcases hcl with h | ⟨v, hv, hp⟩
    · simp [RawRequest.extract_content_length, hb, h]
    · simp [RawRequest.extract_content_length, hb, hv, hp]
  have hreq : r.extract_content_length.request = some b := by
    simp [RawRequest.extract_content_length, hb]
  refine ⟨h0, ?_, ?_⟩
  · simp [RawRequest.ready, hreq, h0]
  · simp [RawRequest.validate, hreq, h0]

/-- C9 (witness): a decoded head without a Content-Length header, carrying a
stale cached length of 7: the re-extraction resets it to 0, `ready()` holds,
and `validate()` accepts under the default configuration. -/
theorem c9_no_content_length_witness :
    c9Raw.extract_content_length.content_length = 0 ∧
    c9Raw.extract_content_length.ready = true ∧
    c9Raw.extract_content_length.validate cfgDefault = .ok () :=
  c9_no_content_length c9Raw
    { method := chars "GET", uri := chars "/", version := .V11, headers := [] }
    cfgDefault rfl (Or.inl rfl)

/-! ## C10 — error responses close the connection -/

/-- C10: a response built by `Response::from_error` keeps the `close = true`
default of `Response::new`; its encoding is a `ResponseBody` with `close =
true`, and sending it through `Connection::send_response` on a live
connection that has not yet sent close-notify queues the TLS close-notify. -/
theorem c10_error_close (e : Error) (c : Connection) (date : List Char)
    (h1 : c.closed = false) (h2 : c.close_notify_sent = false) :
    (Response.from_error e).close = true ∧
    ∃ rb, (Response.from_error e).encode date = .ok rb ∧ rb.close = true ∧
      (c.send_response rb).close_notify_sent = true ∧
      (c.send_response rb).closeNotifyQueued = true := by
  refine ⟨rfl, ?_⟩
  refine ⟨_, rfl, rfl, ?_, ?_⟩ <;>
    simp [Connection.send_response, h1, Response.from_error, Response.error,
      Response.json, Response.body, Response.header, Response.setStatus,
      Response.new, Connection.send_close_notify, Connection.write, h2,
      ResponseBody.new_with_close]

/-- C10 (witness): a fresh connection and a `ServerFault` error: the encoded
error response carries `close = true` and sending it queues the
close-notify. -/
theorem c10_error_close_witness :
    (Response.from_error (Error.new "boom")).close = true ∧
    ∃ rb, (Response.from_error (Error.new "boom")).encode (chars "D") = .ok rb ∧
      rb.close = true ∧
      ((Connection.new 10).send_response rb).close_notify_sent = true ∧
      ((Connection.new 10).send_response rb).closeNotifyQueued = true :=
  c10_error_close (Error.new "boom") (Connection.new 10) (chars "D") rfl rfl

/-- Looking up the freshly inserted key finds the inserted value. -/
theorem lookupA_insertA_self {α : Type} :
    ∀ (m : List (Nat × α)) (k : Nat) (v : α), lookupA (insertA m k v) k = some v
  | [], k, v => by simp [insertA, lookupA]
  | (k0, w) :: rest, k, v => by
    by_cases h : k0 = k
    · simp [insertA, h, lookupA]
    · simp [insertA, h, lookupA, lookupA_insertA_self rest k v]

/-- C1 (amended): `Server::accept` assigns the current `next_id` (even or
odd) and advances it by one, wrapping to the connection base when `next_id +
1` would reach `base + u32::MAX`; the registered connection's companion
deferral-waker token is the identifier plus one; and `handle_event` treats
every token in the connection range as a socket event of the connection
registered under exactly that token (ignoring absent ids), deferral wakeups
being delivered through the dedicated `DEFERRAL_TOKEN` rather than through
odd connection tokens. -/
theorem c1_accept_dispatch (s : ServerModel) (tok : Nat)
    (h1 : MIO_SERVER_OFFSET ≤ tok) (h2 : tok < MIO_EXEC_OFFSET) :
    (ServerModel.accept s).2 = s.nextId ∧
    ((lookupA (ServerModel.accept s).1.connections s.nextId).map Connection.wakerToken
      = some (s.nextId + 1)) ∧
    ((ServerModel.accept s).1.nextId =
      if s.nextId + 1 ≥ MIO_SERVER_OFFSET + U32_MAX then MIO_SERVER_OFFSET
      else s.nextId + 1) ∧
    (ServerModel.classifyEvent s tok =
      if (lookupA s.connections tok).isSome then .connEvent tok
      else .staleIgnored tok) ∧
    ServerModel.classifyEvent s DEFERRAL_TOKEN = .deferralDrain := by
  refine ⟨rfl, ?_, rfl, ?_, ?_⟩
  · simp [ServerModel.accept, lookupA_insertA_self, Connection.new]
  · have hah : MIO_EXEC_OFFSET ≤ MIO_HTTPC_OFFSET := by
      simp [MIO_HTTPC_OFFSET]
    have hds : DEFERRAL_TOKEN < MIO_SERVER_OFFSET := by decide
    have hd : ¬ tok = DEFERRAL_TOKEN := by omega
    have hh : ¬ tok ≥ MIO_HTTPC_OFFSET := by omega
    have he : ¬ tok ≥ MIO_EXEC_OFFSET := by omega
    simp [ServerModel.classifyEvent, hd, hh, he, h1]
  · simp [ServerModel.classifyEvent]

/-- C1 (amended, witness): from the fresh server, the first accept assigns
token 10 with waker token 11, and token 10 in the resulting registry is
classified as a socket event of connection 10. -/
theorem c1_accept_dispatch_witness :
    MIO_SERVER_OFFSET ≤ 10 ∧ 10 < MIO_EXEC_OFFSET ∧
    (ServerModel.accept ServerModel.init).2 = ServerModel.init.nextId ∧
    ((lookupA (ServerModel.accept ServerModel.init).1.connections
        ServerModel.init.nextId).map Connection.wakerToken
      = some (ServerModel.init.nextId + 1)) ∧
    (ServerModel.classifyEvent (ServerModel.accept ServerModel.init).1 10 =
      if (lookupA (ServerModel.accept ServerModel.init).1.connections 10).isSome then
        .connEvent 10
      else .staleIgnored 10) :=
  ⟨by decide, by decide,
   (c1_accept_dispatch ServerModel.init 10 (by decide) (by decide)).1,
   (c1_accept_dispatch ServerModel.init 10 (by decide) (by decide)).2.1,
   (c1_accept_dispatch (ServerModel.accept ServerModel.init).1 10
     (by decide) (by decide)).2.2.2.1⟩

/-- Removing a key makes its lookup fail. -/
theorem lookupA_removeA_self {α : Type} :
    ∀ (m : List (Nat × α)) (k : Nat), lookupA (removeA m k) k = none
  | [], _ => rfl
  | (k0, v) :: rest, k => by
    by_cases h : k0 = k
    · simp [removeA, h, lookupA_removeA_self rest k]
    · simp [removeA, h, lookupA, lookupA_removeA_self rest k]

/-- Removing one key leaves the lookup of any other key unchanged. -/
theorem lookupA_removeA_ne {α : Type} :
    ∀ (m : List (Nat × α)) (k k2 : Nat), k2 ≠ k →
      lookupA (removeA m k) k2 = lookupA m k2
  | [], _, _, _ => rfl
  | (k0, v) :: rest, k, k2, h => by
    by_cases h0 : k0 = k
    · subst h0
      have hne : ¬ k0 = k2 := fun he => h he.symm
      simp [removeA, lookupA, hne, lookupA_removeA_ne rest k0 k2 h]
    · simp only [removeA, h0, if_false, lookupA]
      by_cases h2 : k0 = k2
      · simp [h2]
      · simp [h2, lookupA_removeA_ne rest k k2 h]

/-- The timeout sweep never resurrects an absent call reference. -/
theorem checkTimeoutsGo_none :
    ∀ (t : List Nat) (m aborted : List (Nat × HttpcCall)) (w d : List Nat) (k : Nat),
      lookupA m k = none → lookupA (checkTimeoutsGo t m aborted w d).1 k = none
  | [], _, _, _, _, _, h => h
  | c :: rest, m, aborted, w, d, k, h => by
    cases hl : lookupA m c with
    | some st =>
      simp only [checkTimeoutsGo, hl]
      apply checkTimeoutsGo_none rest
      by_cases hck : k = c
      · subst hck
        exact lookupA_removeA_self m k
      · rw [lookupA_removeA_ne m c k hck]
        exact h
    | none =>
      simp only [checkTimeoutsGo, hl]
      exact checkTimeoutsGo_none rest m aborted w d k h

/-- The timeout sweep only appends to the aborted-state accumulator. -/
theorem checkTimeoutsGo_mono_aborted :
    ∀ (t : List Nat) (m aborted : List (Nat × HttpcCall)) (w d : List Nat)
      (x : Nat × HttpcCall),
      x ∈ aborted → x ∈ (checkTimeoutsGo t m aborted w d).2.1
  | [], _, _, _, _, _, h => h
  | c :: rest, m, aborted, w, d, x, h => by
    cases hl : lookupA m c with
    | some st =>
      simp only [checkTimeoutsGo, hl]
      exact checkTimeoutsGo_mono_aborted rest _ _ _ _ x
        (List.mem_append_left _ h)
    | none =>
      simp only [checkTimeoutsGo, hl]
      exact checkTimeoutsGo_mono_aborted rest m aborted w d x h

/-- The timeout sweep only appends to the woken-waker accumulator. -/
theorem checkTimeoutsGo_mono_woken :
    ∀ (t : List Nat) (m aborted : List (Nat × HttpcCall)) (w d : List Nat) (x : Nat),
      x ∈ w → x ∈ (checkTimeoutsGo t m aborted w d).2.2.1
  | [], _, _, _, _, _, h => h
  | c :: rest, m, aborted, w, d, x, h => by
    cases hl : lookupA m c with
    | some st =>
      simp only [checkTimeoutsGo, hl]
      exact checkTimeoutsGo_mono_woken rest _ _ _ _ x
        (List.mem_append_left _ h)
    | none =>
      simp only [checkTimeoutsGo, hl]
      exact checkTimeoutsGo_mono_woken rest m aborted w d x h

/-- The timeout sweep removes every timed-out present call, accumulates its
aborted shared state, and wakes its stored waker. -/
theorem checkTimeoutsGo_spec :
    ∀ (t : List Nat) (m aborted : List (Nat × HttpcCall)) (w d : List Nat)
      (cref : Nat) (st : HttpcCall),
      cref ∈ t → lookupA m cref = some st →
      lookupA (checkTimeoutsGo t m aborted w d).1 cref = none ∧
      (cref, (HttpcCall.abort st).1) ∈ (checkTimeoutsGo t m aborted w d).2.1 ∧
      (∀ wk, st.waker = some wk → wk ∈ (checkTimeoutsGo t m aborted w d).2.2.1)
  | [], _, _, _, _, _, _, hmem, _ => absurd hmem (List.not_mem_nil _)
  | c :: rest, m, aborted, w, d, cref, st, hmem, hlook => by
    by_cases hc : c = cref
    · subst hc
      simp only [checkTimeoutsGo, hlook]
      refine ⟨checkTimeoutsGo_none rest _ _ _ _ c (lookupA_removeA_self m c), ?_, ?_⟩
      · exact checkTimeoutsGo_mono_aborted rest _ _ _ _ _
          (List.mem_append_right _ (by simp))
      · intro wk hwk
        have hwaker : (HttpcCall.abort st).2.2 = st.waker := by
          cases herr0 : st.err <;> cases hcall : st.call <;>
            simp [HttpcCall.abort, herr0, hcall]
        refine checkTimeoutsGo_mono_woken rest _ _ _ _ wk
          (List.mem_append_right _ ?_)
        rw [hwaker, hwk]
        simp
    · have hmem2 : cref ∈ rest := by
        cases hmem with
        | head => exact absurd rfl hc
        | tail _ h => exact h
      cases hl : lookupA m c with
      | some st2 =>
        simp only [checkTimeoutsGo, hl]
        exact checkTimeoutsGo_spec rest _ _ _ _ cref st hmem2
          (by rw [lookupA_removeA_ne m c cref (fun he => hc (he ▸ rfl))]; exact hlook)
      | none =>
        simp only [checkTimeoutsGo, hl]
        exact checkTimeoutsGo_spec rest m aborted w d cref st hmem2 hlook

/-! ## C7 — outbound call timeouts -/

/-- C7: for every call reference reported timed out by the engine whose entry
is present with no prior error, `check_timeouts` removes the map entry, and
the shared call state it aborts carries the `HttpClientTimedOut` error with
the underlying call dropped; the stored waker is woken, and any subsequent
poll of the future over that state resolves with the `HttpClientTimedOut`
error. -/
theorem c7_check_timeouts (calls : List (Nat × HttpcCall)) (timedOut : List Nat)
    (cref : Nat) (st : HttpcCall)
    (hmem : cref ∈ timedOut) (hlook : lookupA calls cref = some st)
    (herr : st.err = none) :
    lookupA (HttpcReactor.check_timeouts calls timedOut).1 cref = none ∧
    (cref, (HttpcCall.abort st).1) ∈ (HttpcReactor.check_timeouts calls timedOut).2.1 ∧
    (HttpcCall.abort st).1.err = some httpcTimedOutErr ∧
    (HttpcCall.abort st).1.call = none ∧
    (HttpcCall.abort st).2.1 = st.call ∧
    (∀ wk, st.waker = some wk →
      wk ∈ (HttpcReactor.check_timeouts calls timedOut).2.2.1) ∧
    (∀ (nw : Nat) (engineDone : Nat → Bool),
      (HttpcCallFuture.poll (HttpcCall.abort st).1 nw engineDone).1
        = .readyErr httpcTimedOutErr) := by
  obtain ⟨hnone, habt, hwoke⟩ :=
    checkTimeoutsGo_spec timedOut calls [] [] [] cref st hmem hlook
  have herr2 : (HttpcCall.abort st).1.err = some httpcTimedOutErr := by
    cases hcall : st.call <;> simp [HttpcCall.abort, herr, hcall]
  refine ⟨hnone, habt, herr2, ?_, ?_, hwoke, ?_⟩
  · cases hcall : st.call <;> simp [HttpcCall.abort, herr, hcall]
  · cases hcall : st.call <;> simp [HttpcCall.abort, herr, hcall]
  · intro nw engineDone
    simp [HttpcCallFuture.poll, herr2]

/-- C7 (witness): a single live call at reference 3 reported timed out: the
entry is removed and any poll of the aborted state resolves with
`HttpClientTimedOut`. -/
theorem c7_check_timeouts_witness :
    lookupA (HttpcReactor.check_timeouts [(3, c7Call)] [3]).1 3 = none ∧
    (3, (HttpcCall.abort c7Call).1) ∈ (HttpcReactor.check_timeouts [(3, c7Call)] [3]).2.1 ∧
    (∀ (nw : Nat) (engineDone : Nat → Bool),
      (HttpcCallFuture.poll (HttpcCall.abort c7Call).1 nw engineDone).1
        = .readyErr httpcTimedOutErr) :=
  ⟨(c7_check_timeouts [(3, c7Call)] [3] 3 c7Call (by decide) (by decide) rfl).1,
   (c7_check_timeouts [(3, c7Call)] [3] 3 c7Call (by decide) (by decide) rfl).2.1,
   (c7_check_timeouts [(3, c7Call)] [3] 3 c7Call (by decide) (by decide) rfl).2.2.2.2.2.2⟩

/-- A slash-free piece is one whole split piece. -/
theorem splitOnSlash_no_slash :
    ∀ (l : List Char), '/' ∉ l → splitOnSlash l = [l]
  | [], _ => rfl
  | c :: rest, h => by
    have hc : ¬ c = '/' := fun he => h (by simp [he])
    simp [splitOnSlash, hc,
      splitOnSlash_no_slash rest (fun hm => h (List.mem_cons_of_mem _ hm))]

/-- Splitting at the first slash after a slash-free piece. -/
theorem splitOnSlash_append :
    ∀ (l r : List Char), '/' ∉ l →
      splitOnSlash (l ++ '/' :: r) = l :: splitOnSlash r
  | [], r, _ => by simp [splitOnSlash]
  | c :: l, r, h => by
    have hc : ¬ c = '/' := fun he => h (by simp [he])
    simp [splitOnSlash, hc,
      splitOnSlash_append l r (fun hm => h (List.mem_cons_of_mem _ hm))]

/-- Literal path tokens match their own segments and bind nothing. -/
theorem matchTokens_paths :
    ∀ (parts : List (List Char)) (acc : List (List Char × List Char)),
      matchTokens (parts.map RouteToken.path) parts acc = some acc
  | [], _ => rfl
  | p :: ps, acc => by simp [matchTokens, matchTokens_paths ps acc]

/-! ## C8 — route matching and captures -/

/-- C8: matching a path `/a/v/b` (with `v` a non-empty slash-free segment)
against the registered template `/a/:x/b` under the same method returns the
registered handler with the capture map `{x: v}`; and a registered path with
no `:` segments matches itself with an empty capture map. -/
theorem c8_router_captures :
    (∀ (method v : List Char) (hid : Nat), v ≠ [] → '/' ∉ v →
      Router.find [RouteHandler.make method (chars "/a/:x/b") hid] method
        (chars "/a/" ++ v ++ chars "/b")
        = some (hid, [(chars "x", v)])) ∧
    (∀ (method path : List Char) (hid : Nat),
      (∀ seg ∈ segmentsOf path, seg.head? ≠ some ':') →
      Router.find [RouteHandler.make method path hid] method path
        = some (hid, [])) := by
  constructor
  · intro method v hid hne hslash
    have hvE : v.isEmpty = false := by
      cases hv : v with
      | nil => exact absurd hv hne
      | cons a as => rfl
    have h1 : chars "/a/" ++ v ++ chars "/b"
        = '/' :: ('a' :: '/' :: (v ++ '/' :: 'b' :: [])) := by
      simp [chars, List.append_assoc]
    have hsegP : segmentsOf (chars "/a/" ++ v ++ chars "/b")
        = [chars "a", v, chars "b"] := by
      rw [h1]
      simp only [segmentsOf, path_into_trimmed_string, if_pos]
      have h2 : 'a' :: '/' :: (v ++ '/' :: 'b' :: [])
          = ['a'] ++ '/' :: (v ++ '/' :: 'b' :: []) := rfl
      rw [h2, splitOnSlash_append ['a'] _ (by decide),
        splitOnSlash_append v ['b'] hslash,
        splitOnSlash_no_slash ['b'] (by decide)]
      simp [hvE, chars]
    have htoks : (RouteHandler.make method (chars "/a/:x/b") hid).tokens
        = [RouteToken.path (chars "a"), RouteToken.capture (chars "x"),
           RouteToken.path (chars "b")] := rfl
    have hmeth : (RouteHandler.make method (chars "/a/:x/b") hid).method = method := rfl
    have hhid : (RouteHandler.make method (chars "/a/:x/b") hid).handlerId = hid := rfl
    simp only [Router.find, hsegP, htoks, hmeth, hhid]
    simp [matchTokens, insertCapture, chars]
  · intro method path hid hseg
    have htokseq : (RouteHandler.make method path hid).tokens
        = (segmentsOf path).map segToken := rfl
    have htoks2 : (RouteHandler.make method path hid).tokens
        = (segmentsOf path).map RouteToken.path := by
      rw [htokseq]
      refine List.map_congr_left ?_
      intro seg hs
      have hh := hseg seg hs
      cases seg with
      | nil => rfl
      | cons c cs =>
        have hc : ¬ c = ':' := by simpa using hh
        simp [segToken, hc]
    have hmeth : (RouteHandler.make method path hid).method = method := rfl
    have hhid : (RouteHandler.make method path hid).handlerId = hid := rfl
    simp only [Router.find, htoks2, hmeth, hhid]
    simp [matchTokens_paths]

/-- C8 (witness): the template `/a/:x/b` matched against `/a/alice/b` yields
the capture `{x: alice}`, and the capture-free route `/ping` matches itself
with no captures. -/
theorem c8_router_captures_witness :
    (chars "alice" ≠ [] ∧ '/' ∉ chars "alice") ∧
    Router.find [RouteHandler.make (chars "GET") (chars "/a/:x/b") 7] (chars "GET")
      (chars "/a/" ++ chars "alice" ++ chars "/b")
      = some (7, [(chars "x", chars "alice")]) ∧
    Router.find [RouteHandler.make (chars "GET") (chars "/ping") 3] (chars "GET")
      (chars "/ping") = some (3, []) :=
  ⟨⟨by decide, by decide⟩,
   c8_router_captures.1 (chars "GET") (chars "alice") 7 (by decide) (by decide),
   c8_router_captures.2 (chars "GET") (chars "/ping") 3 (by decide)⟩

end Teggle
